import Mathlib

/-!
Shallow embedding of the conversion-latency analysis engine of the
klaviyo-analysis repository, and proofs about it.

The engine exists in several near-duplicate variants in the repository.  Two
are embedded here because the claims under investigation cite both and they
differ in substance:

* `Frontend`: `frontend/src/services/analysis.service.ts`
  (class `AnalysisService`), the engine used by the web application.
* `Script`: the standalone complete-implementation script
  (`analyzeSubscriptionToOrderTime` and its helpers `processEvents`,
  `calculateStatistics`, `generateCohortData`, `calculateDistribution`).

Modelling conventions:

* A JavaScript `Date` is its UTC epoch timestamp in milliseconds, an `Int`.
  The runtime is assumed to be in the UTC timezone, so `getFullYear`,
  `getMonth`, `getDate`, `getDay` agree with the UTC accessors and with
  `toISOString`.
* The `YYYY-MM-DD` strings produced by `toISOString().split('T')[0]` are
  represented by the day number (days since the epoch) they denote; the
  cohort-key strings are represented by the values interpolated into them.
  Both representations are injective, so grouping and equality are preserved.
* JavaScript `number` arithmetic on timestamps, counts and the derived
  statistics is modelled exactly over `Int` / `Rat` (all integer values
  involved are far below 2^53, where double arithmetic is exact; the
  statistical divisions are modelled as exact rationals).
  `stdDev = Math.sqrt(variance)` is not rational, so the structure carries
  the radicand `variance` instead; no property examined depends on `stdDev`.
* A JavaScript `Map` is its insertion-ordered entry list, looked up with
  `alookup`; `Map.set` updates a present key in place and appends an absent
  key at the end.
* A missing or falsy (`undefined` / `null` / `""` / `0`) field guarding a
  `continue` is modelled as `Option.none`.
-/

/-- First-match lookup in an insertion-ordered association list
(`Map.prototype.get`). -/
def alookup {κ β : Type} [DecidableEq κ] (k : κ) : List (κ × β) → Option β
  | [] => none
  | (a, b) :: t => if a = k then some b else alookup k t

/-- One `Map.set`-style update used by the event reducers: keep the earlier
of the stored and the incoming timestamp for `pid` (`if (!existing ||
incoming < existing) map.set(pid, incoming)`), appending when absent. -/
def updMin (m : List (String × Int)) (pid : String) (dt : Int) : List (String × Int) :=
  match alookup pid m with
  | some ex => if dt < ex then m.map (fun kv => if kv.1 = pid then (pid, dt) else kv) else m
  | none => m ++ [(pid, dt)]

/-- `cohorts.get(key)!.push(x)` preceded by `if (!cohorts.has(key))
cohorts.set(key, [])`: append `x` to the group of `k`, creating the group at
the end of the map when absent. -/
def insertGroup {κ α : Type} [DecidableEq κ] (k : κ) (x : α) :
    List (κ × List α) → List (κ × List α)
  | [] => [(k, [x])]
  | (a, l) :: t => if a = k then (a, l ++ [x]) :: t else (a, l) :: insertGroup k x t

/-- Grouping a list into a `Map` of lists, in encounter order. -/
def groupByKey {κ α : Type} [DecidableEq κ] (key : α → κ) (data : List α) :
    List (κ × List α) :=
  data.foldl (fun cs x => insertGroup (key x) x cs) []

/-- Milliseconds per day (`1000 * 60 * 60 * 24`). -/
def msPerDay : Int := 86400000

/-- `Math.round`: round to nearest, half towards positive infinity.  On the
nonnegative arguments produced by the matcher this coincides with
round-half-away-from-zero. -/
def jsRound (q : ℚ) : Int := ⌊q + 1 / 2⌋

/-- `Math.round` as §4.2/§8 of the spec words it: round to nearest with ties
half away from zero.  Stated from the spec, for comparison with `jsRound`. -/
def specRoundHalfAwayFromZero (q : ℚ) : Int :=
  if 0 ≤ q then ⌊q + 1 / 2⌋ else -⌊-q + 1 / 2⌋

/-- Ascending numeric sort, `xs.sort((a, b) => a - b)`.  A list of integers
has a unique ascending reordering, so the choice of algorithm is
irrelevant. -/
def sortInt (l : List Int) : List Int := l.insertionSort (· ≤ ·)

namespace Frontend

/-- A raw Klaviyo event as `AnalysisService` reads it: only
`event.relationships?.profile?.data?.id` and `event.attributes?.datetime`
are consulted.  `none` models an absent or falsy field (which the code
skips with `continue`); a present `datetime` is its parsed timestamp. -/
structure KEvent where
  profileId : Option String
  datetime : Option Int
deriving DecidableEq, Repr

/-- `AnalysisService.processSubscriptionEvents`: earliest subscription per
profile. -/
def processSubscriptionEvents (events : List KEvent) : List (String × Int) :=
  events.foldl
    (fun subscriptions event =>
      match event.profileId, event.datetime with
      | some pid, some dt => updMin subscriptions pid dt
      | _, _ => subscriptions)
    []

/-- `AnalysisService.processOrderEvents`: earliest order per profile
(same body as `processSubscriptionEvents`). -/
def processOrderEvents (events : List KEvent) : List (String × Int) :=
  events.foldl
    (fun orders event =>
      match event.profileId, event.datetime with
      | some pid, some dt => updMin orders pid dt
      | _, _ => orders)
    []

/-- `ProfileData` of the frontend types module. -/
structure ProfileData where
  profileID : String
  firstSubscriptionDate : Int
  firstOrderDate : Option Int
  daysToFirstOrder : Option Int
deriving DecidableEq, Repr, Inhabited

/-- The loop body of `AnalysisService.matchSubscriptionsToOrders` for one
`[profileID, subscriptionDate]` entry: `daysToFirstOrder` is set only when
an order exists and `orderDate > subscriptionDate` (strict). -/
def matchOne (orders : List (String × Int)) (entry : String × Int) : ProfileData :=
  let orderDate := alookup entry.1 orders
  let daysToFirstOrder : Option Int :=
    match orderDate with
    | some o => if entry.2 < o then some (jsRound ((o - entry.2 : Int) / (msPerDay : ℚ))) else none
    | none => none
  ⟨entry.1, entry.2, orderDate, daysToFirstOrder⟩

/-- `AnalysisService.matchSubscriptionsToOrders`: one `ProfileData` per
entry of the subscriptions map, in map order. -/
def matchSubscriptionsToOrders (subscriptions orders : List (String × Int)) :
    List ProfileData :=
  subscriptions.map (matchOne orders)

/-- `profiles.filter((p) => p.daysToFirstOrder !== null)`. -/
def withOrders (profiles : List ProfileData) : List ProfileData :=
  profiles.filter (fun p => p.daysToFirstOrder.isSome)

/-- `withOrders.map((p) => p.daysToFirstOrder!).filter((d) => d >= 0)
.sort((a, b) => a - b)` (the `getD 0` stands for the non-null assertion
`p.daysToFirstOrder!`, which the filter guarantees is never the default). -/
def daysToOrderOf (profiles : List ProfileData) : List Int :=
  sortInt (((withOrders profiles).map (fun p => p.daysToFirstOrder.getD 0)).filter
    (fun d => 0 ≤ d))

/-- `Math.floor(len * p)` for the percentile constants `p`. -/
def pctIndex (len : Nat) (p : ℚ) : Nat := (⌊(len : ℚ) * p⌋).toNat

/-- The `percentiles` field of `Statistics`. -/
structure Percentiles where
  p25 : ℚ
  p75 : ℚ
  p90 : ℚ
  p95 : ℚ
deriving DecidableEq, Repr

/-- `Statistics` of the frontend types module (`stdDev` is carried as its
radicand `variance`, see the module docstring). -/
structure Statistics where
  totalSubscribers : Nat
  subscribersWithOrder : Nat
  conversionRate : ℚ
  meanDaysToFirstOrder : ℚ
  medianDaysToFirstOrder : ℚ
  variance : ℚ
  percentiles : Percentiles
deriving DecidableEq, Repr

/-- `AnalysisService.calculateStatistics`. -/
def calculateStatistics (profiles : List ProfileData) : Statistics :=
  let wo := withOrders profiles
  let daysToOrder := daysToOrderOf profiles
  let n := daysToOrder.length
  let mean : ℚ := if 0 < n then ((daysToOrder.sum : Int) : ℚ) / (n : ℚ) else 0
  let median : ℚ := if 0 < n then ((daysToOrder.getD (n / 2) 0 : Int) : ℚ) else 0
  let variance : ℚ :=
    if 0 < n then (daysToOrder.map (fun d => ((d : ℚ) - mean) ^ 2)).sum / (n : ℚ) else 0
  { totalSubscribers := profiles.length
    subscribersWithOrder := wo.length
    conversionRate :=
      if 0 < profiles.length then ((wo.length : ℚ) / (profiles.length : ℚ)) * 100 else 0
    meanDaysToFirstOrder := mean
    medianDaysToFirstOrder := median
    variance := variance
    percentiles :=
      { p25 := ((daysToOrder.getD (pctIndex n (25 / 100)) 0 : Int) : ℚ)
        p75 := ((daysToOrder.getD (pctIndex n (75 / 100)) 0 : Int) : ℚ)
        p90 := ((daysToOrder.getD (pctIndex n (90 / 100)) 0 : Int) : ℚ)
        p95 := ((daysToOrder.getD (pctIndex n (95 / 100)) 0 : Int) : ℚ) } }

end Frontend

/-- §4.3 of the spec, as worded there but in the percent scale the code
actually uses: `convertedEntities / totalEntities * 100`, `0` when the
population is empty. -/
def conversionRatePctSpec (profiles : List Frontend.ProfileData) : ℚ :=
  if profiles.length = 0 then 0
  else ((Frontend.withOrders profiles).length : ℚ) / (profiles.length : ℚ) * 100
/-- §4.3's nearest-rank percentile as the spec words it: index
`floor(|D| * p)` into the ascending latency list `D`, `0` when `|D| == 0`.
Stated from the spec, for comparison with the implementations. -/
def specNearestRank (sorted : List Int) (p : ℚ) : ℚ :=
  if sorted.length = 0 then 0
  else ((sorted.getD (⌊(sorted.length : ℚ) * p⌋).toNat 0 : Int) : ℚ)

/-- Day number of a millisecond timestamp (`Math.floor(ms / 86400000)`):
the calendar date that `toISOString().split('T')[0]` prints. -/
def dayOf (ms : Int) : Int := Int.fdiv ms msPerDay

/-- `Date.prototype.getDay` (UTC runtime): 0 = Sunday … 6 = Saturday;
day 0 (1970-01-01) was a Thursday. -/
def getDayJS (ms : Int) : Int := (dayOf ms + 4) % 7

/-- Gregorian day number → (year, month 1..12, day of month): the civil
calendar of ECMAScript `Date` (proleptic Gregorian, UTC), by the standard
era-based conversion. -/
def civilFromDays (z0 : Int) : Int × Int × Int :=
  let z := z0 + 719468
  let era := Int.fdiv z 146097
  let doe := z - era * 146097
  let yoe := (doe - doe / 1460 + doe / 36524 - doe / 146096) / 365
  let y := yoe + era * 400
  let doy := doe - (365 * yoe + yoe / 4 - yoe / 100)
  let mp := (5 * doy + 2) / 153
  let d := doy - (153 * mp + 2) / 5 + 1
  let m := mp + (if mp < 10 then 3 else -9)
  (y + (if m ≤ 2 then 1 else 0), m, d)

/-- (year, month 1..12, day of month) → Gregorian day number (inverse of
`civilFromDays`). -/
def daysFromCivil (y m d : Int) : Int :=
  let y1 := if m ≤ 2 then y - 1 else y
  let era := Int.fdiv y1 400
  let yoe := y1 - era * 400
  let mp := (m + 9) % 12
  let doy := (153 * mp + 2) / 5 + d - 1
  let doe := yoe * 365 + yoe / 4 - yoe / 100 + doy
  era * 146097 + doe - 719468

/-- `Date.prototype.getFullYear` (UTC runtime). -/
def getFullYear (ms : Int) : Int := (civilFromDays (dayOf ms)).1

namespace Frontend

/-- `AnalysisService.getWeekNumber`: ISO week number by the Thursday trick,
exactly as coded (`Date.UTC(getFullYear, getMonth, getDate)` is midnight of
the same civil date, so its `getUTCDay` equals `getDayJS`). -/
def getWeekNumber (ms : Int) : Int :=
  let day := dayOf ms
  let dayNum := if getDayJS ms = 0 then 7 else getDayJS ms
  let thursday := day + 4 - dayNum
  let yearStart := daysFromCivil (civilFromDays thursday).1 1 1
  Int.ceil (((thursday - yearStart : Int) : ℚ) + 1 / 7)

/-- Cohort key of `AnalysisService.generateCohortData`:
`` `${year}-W${week.toString().padStart(2, '0')}` `` represented by the
interpolated pair (the week number is 1..53, so the padded string is
injective in the pair). -/
def cohortKeyOf (ms : Int) : Int × Int := (getFullYear ms, getWeekNumber ms)

/-- `CohortDataPoint` of the frontend types module.  `signupDate` and the
date interpolated into `cohortLabel` (`Week of ${...}`) are both the first
cohort profile's subscription date, represented as its day number. -/
structure CohortDataPoint where
  signupDate : Int
  cohortLabel : Int
  subscribers : Nat
  ordersPlaced : Nat
  conversionRate : ℚ
  avgDaysToOrder : ℚ
  medianDaysToOrder : ℚ
deriving DecidableEq, Repr

instance : DecidableRel
    (fun a b : CohortDataPoint => a.signupDate ≤ b.signupDate) :=
  fun a b => inferInstanceAs (Decidable (a.signupDate ≤ b.signupDate))

/-- The per-cohort body of `AnalysisService.generateCohortData` (the
`headD default` models `cohortProfiles[0]`; groups are never empty). -/
def mkCohortPoint (cohortProfiles : List ProfileData) : CohortDataPoint :=
  let withO := cohortProfiles.filter
    (fun p =>
      match p.daysToFirstOrder with
      | some v => decide (0 ≤ v)
      | none => false)
  let daysToOrder := sortInt (withO.map (fun p => p.daysToFirstOrder.getD 0))
  let avgDays : ℚ :=
    if 0 < daysToOrder.length then
      ((daysToOrder.sum : Int) : ℚ) / (daysToOrder.length : ℚ)
    else 0
  let medianDays : ℚ :=
    if 0 < daysToOrder.length then
      ((daysToOrder.getD (daysToOrder.length / 2) 0 : Int) : ℚ)
    else 0
  let firstDate := dayOf (cohortProfiles.headD default).firstSubscriptionDate
  { signupDate := firstDate
    cohortLabel := firstDate
    subscribers := cohortProfiles.length
    ordersPlaced := withO.length
    conversionRate :=
      if 0 < cohortProfiles.length then
        ((withO.length : ℚ) / (cohortProfiles.length : ℚ)) * 100
      else 0
    avgDaysToOrder := avgDays
    medianDaysToOrder := medianDays }

/-- `AnalysisService.generateCohortData`: group by `${year}-W${week}`,
build one point per cohort, sort by `signupDate` (the `localeCompare` on
ISO date strings is chronological order). -/
def generateCohortData (profiles : List ProfileData) : List CohortDataPoint :=
  let cohorts := groupByKey (fun p => cohortKeyOf p.firstSubscriptionDate) profiles
  (cohorts.map (fun kv => mkCohortPoint kv.2)).insertionSort
    (fun a b => a.signupDate ≤ b.signupDate)

/-- The record returned by `AnalysisService.runAnalysis`. -/
structure AnalysisResult where
  statistics : Statistics
  cohortData : List CohortDataPoint
  profiles : List ProfileData
deriving DecidableEq, Repr

/-- `AnalysisService.runAnalysis`: the engine entry point. -/
def runAnalysis (subscriptionEvents orderEvents : List KEvent) : AnalysisResult :=
  let subscriptions := processSubscriptionEvents subscriptionEvents
  let orders := processOrderEvents orderEvents
  let profiles := matchSubscriptionsToOrders subscriptions orders
  { statistics := calculateStatistics profiles
    cohortData := generateCohortData profiles
    profiles := profiles }

end Frontend

namespace Script

/-- A raw `KlaviyoEvent` as `processEvents` reads it: `profile_id`,
`datetime` (ISO string, parsed to epoch ms) and `timestamp` (unix seconds).
`none` models an absent or falsy field. -/
structure KEvent where
  profile_id : Option String
  datetime : Option Int
  timestamp : Option Int
deriving DecidableEq, Repr

/-- `event.datetime ? new Date(event.datetime) : event.timestamp
? new Date(event.timestamp * 1000) : null`. -/
def eventDate (e : KEvent) : Option Int :=
  match e.datetime with
  | some dt => some dt
  | none =>
    match e.timestamp with
    | some ts => some (ts * 1000)
    | none => none

/-- The first-occurrence reducer of `processEvents`, applied to each of the
two event streams: earliest event date per profile. -/
def reduceByProfile (events : List KEvent) : List (String × Int) :=
  events.foldl
    (fun m e =>
      match e.profile_id, eventDate e with
      | some pid, some d => updMin m pid d
      | _, _ => m)
    []

/-- `ProfileSubscriptionData` of the script. -/
structure ProfileSubscriptionData where
  profileID : String
  subscribedDate : Int
  firstOrderDate : Option Int
  daysToFirstOrder : Option Int
deriving DecidableEq, Repr, Inhabited

/-- `processEvents`: reduce both streams, build one record per subscriber
with `daysToFirstOrder = Math.floor((order - subscribed) / 86400000)`, and
keep the record only when there is no order or the order does not precede
the subscription (unlike the frontend matcher, early orders DROP the
profile from the population). -/
def processEvents (subscriptionEvents orderEvents : List KEvent) :
    List ProfileSubscriptionData :=
  let subscriptionsByProfile := reduceByProfile subscriptionEvents
  let ordersByProfile := reduceByProfile orderEvents
  (subscriptionsByProfile.map
    (fun entry =>
      let firstOrderDate := alookup entry.1 ordersByProfile
      let daysToFirstOrder :=
        firstOrderDate.map (fun o => (⌊((o - entry.2 : Int) : ℚ) / (msPerDay : ℚ)⌋ : Int))
      (⟨entry.1, entry.2, firstOrderDate, daysToFirstOrder⟩ :
        ProfileSubscriptionData))).filter
    (fun r =>
      match r.firstOrderDate with
      | none => true
      | some o => decide (r.subscribedDate ≤ o))

/-- `subscribersWithOrder`: the records with a non-null, nonnegative
latency (`d.daysToFirstOrder !== null && d.daysToFirstOrder >= 0`). -/
def subscribersWithOrderOf (data : List ProfileSubscriptionData) :
    List ProfileSubscriptionData :=
  data.filter
    (fun d =>
      match d.daysToFirstOrder with
      | some v => decide (0 ≤ v)
      | none => false)

/-- The script's percentile closure: `sorted[Math.floor(sorted.length * p)]
|| 0`. -/
def percentile (sorted : List Int) (p : ℚ) : ℚ :=
  ((sorted.getD (⌊(sorted.length : ℚ) * p⌋).toNat 0 : Int) : ℚ)

/-- The `percentiles` record of the script's statistics. -/
structure Percentiles where
  p25 : ℚ
  p75 : ℚ
  p90 : ℚ
  p95 : ℚ
deriving DecidableEq, Repr

/-- The statistics record of the script (`stdDev` carried as its radicand
`variance`, see the module docstring). -/
structure Statistics where
  totalSubscribers : Nat
  subscribersWithOrder : Nat
  conversionRate : ℚ
  meanDaysToFirstOrder : ℚ
  medianDaysToFirstOrder : ℚ
  variance : ℚ
  percentiles : Percentiles
deriving DecidableEq, Repr

/-- The script's `calculateStatistics`, with its early return on an empty
latency set; `conversionRate` here is the plain fraction and the median is
`percentile(0.5)`. -/
def calculateStatistics (data : List ProfileSubscriptionData) : Statistics :=
  let swo := subscribersWithOrderOf data
  let daysToOrder := swo.map (fun d => d.daysToFirstOrder.getD 0)
  if daysToOrder.length = 0 then
    { totalSubscribers := data.length
      subscribersWithOrder := 0
      conversionRate := 0
      meanDaysToFirstOrder := 0
      medianDaysToFirstOrder := 0
      variance := 0
      percentiles := ⟨0, 0, 0, 0⟩ }
  else
    let mean : ℚ := ((daysToOrder.sum : Int) : ℚ) / (daysToOrder.length : ℚ)
    let sorted := sortInt daysToOrder
    let variance : ℚ :=
      (daysToOrder.map (fun d => ((d : ℚ) - mean) ^ 2)).sum / (daysToOrder.length : ℚ)
    { totalSubscribers := data.length
      subscribersWithOrder := swo.length
      conversionRate := (swo.length : ℚ) / (data.length : ℚ)
      meanDaysToFirstOrder := mean
      medianDaysToFirstOrder := percentile sorted (5 / 10)
      variance := variance
      percentiles :=
        { p25 := percentile sorted (25 / 100)
          p75 := percentile sorted (75 / 100)
          p90 := percentile sorted (90 / 100)
          p95 := percentile sorted (95 / 100) } }

/-- The `cohortPeriod` parameter of the script's `generateCohortData`. -/
inductive CohortPeriod where
  | day
  | week
  | month
deriving DecidableEq, Repr

/-- A cohort key of the script's `generateCohortData`, one constructor per
granularity branch; the interpolated values determine the key string
injectively. -/
inductive CohortKey where
  | day (dayNumber : Int)
  | week (mondayDayNumber : Int)
  | month (year : Int) (month : Int)
deriving DecidableEq, Repr

/-- The `week` branch's Monday: `monday.setDate(signupDate.getDate() -
dayOfWeek + (dayOfWeek === 0 ? -6 : 1))`.  JS `setDate` rolls day-of-month
arithmetic across month boundaries, so the net effect on the timestamp is
a whole-day shift back to the Monday on or before it. -/
def mondayMsOf (ms : Int) : Int :=
  ms + ((if getDayJS ms = 0 then -6 else 1) - getDayJS ms) * msPerDay

/-- The cohort key derived from a subscription timestamp:
`Week of <monday date>` / `Month of <year>-<month>` / the date itself. -/
def cohortKeyOf (g : CohortPeriod) (ms : Int) : CohortKey :=
  match g with
  | .week => .week (dayOf (mondayMsOf ms))
  | .month => .month (getFullYear ms) (civilFromDays (dayOf ms)).2.1
  | .day => .day (dayOf ms)

/-- The per-cohort `dayRanges` histogram. -/
structure DayRanges where
  r0to7 : Nat
  r8to14 : Nat
  r15to30 : Nat
  r31to60 : Nat
  r61to90 : Nat
  r91plus : Nat
deriving DecidableEq, Repr

/-- One step of the `dayRanges` classification chain (inclusive upper
bounds). -/
def rangeAdd (ranges : DayRanges) (days : Int) : DayRanges :=
  if days ≤ 7 then { ranges with r0to7 := ranges.r0to7 + 1 }
  else if days ≤ 14 then { ranges with r8to14 := ranges.r8to14 + 1 }
  else if days ≤ 30 then { ranges with r15to30 := ranges.r15to30 + 1 }
  else if days ≤ 60 then { ranges with r31to60 := ranges.r31to60 + 1 }
  else if days ≤ 90 then { ranges with r61to90 := ranges.r61to90 + 1 }
  else { ranges with r91plus := ranges.r91plus + 1 }

/-- `daysToOrder.forEach(...)` over the classification chain. -/
def dayRangesOf (daysToOrder : List Int) : DayRanges :=
  daysToOrder.foldl rangeAdd ⟨0, 0, 0, 0, 0, 0⟩

/-- `CohortDataPoint` of the script (with its `dayRanges`).  `signupDate`
is `profiles[0].subscribedDate`'s date — the first record of the cohort,
not the period start; `cohortLabel` is the key. -/
structure CohortDataPoint where
  signupDate : Int
  cohortLabel : CohortKey
  subscribers : Nat
  ordersPlaced : Nat
  conversionRate : ℚ
  avgDaysToOrder : ℚ
  medianDaysToOrder : ℚ
  dayRanges : DayRanges
deriving DecidableEq, Repr

instance : DecidableRel
    (fun a b : CohortDataPoint => a.signupDate ≤ b.signupDate) :=
  fun a b => inferInstanceAs (Decidable (a.signupDate ≤ b.signupDate))

instance : IsTotal CohortDataPoint
    (fun a b => a.signupDate ≤ b.signupDate) :=
  ⟨fun a b => le_total a.signupDate b.signupDate⟩

instance : IsTrans CohortDataPoint
    (fun a b => a.signupDate ≤ b.signupDate) :=
  ⟨fun _ _ _ hab hbc => le_trans hab hbc⟩

/-- The per-cohort body of the script's `generateCohortData`; note the
classic even/odd-average median, unlike the overall statistics (the
`headD default` models `profiles[0]`; groups are never empty). -/
def mkCohortPoint (key : CohortKey) (profiles : List ProfileSubscriptionData) :
    CohortDataPoint :=
  let swo := subscribersWithOrderOf profiles
  let daysToOrder := swo.map (fun p => p.daysToFirstOrder.getD 0)
  let dayRanges := dayRangesOf daysToOrder
  let avgDays : ℚ :=
    if 0 < daysToOrder.length then
      ((daysToOrder.sum : Int) : ℚ) / (daysToOrder.length : ℚ)
    else 0
  let sorted := sortInt daysToOrder
  let mid := sorted.length / 2
  let median : ℚ :=
    if 0 < sorted.length then
      if sorted.length % 2 = 0 then
        (((sorted.getD (mid - 1) 0 : Int) : ℚ) + ((sorted.getD mid 0 : Int) : ℚ)) / 2
      else ((sorted.getD mid 0 : Int) : ℚ)
    else 0
  { signupDate := dayOf (profiles.headD default).subscribedDate
    cohortLabel := key
    subscribers := profiles.length
    ordersPlaced := swo.length
    conversionRate :=
      if 0 < profiles.length then (swo.length : ℚ) / (profiles.length : ℚ) else 0
    avgDaysToOrder := avgDays
    medianDaysToOrder := median
    dayRanges := dayRanges }

/-- The script's `generateCohortData`: group by the granularity's cohort
key, build one point per cohort, sort ascending by `signupDate`
(`new Date(a.signupDate) - new Date(b.signupDate)` compares the same day
numbers). -/
def generateCohortData (data : List ProfileSubscriptionData)
    (cohortPeriod : CohortPeriod) : List CohortDataPoint :=
  let cohorts := groupByKey (fun p => cohortKeyOf cohortPeriod p.subscribedDate) data
  (cohorts.map (fun kv => mkCohortPoint kv.1 kv.2)).insertionSort
    (fun a b => a.signupDate ≤ b.signupDate)

/-- `DayRangeDistribution` of the script. -/
structure DayRangeDistribution where
  r0to7 : Nat
  r8to14 : Nat
  r15to30 : Nat
  r31to60 : Nat
  r61to90 : Nat
  r91plus : Nat
  never : Nat
deriving DecidableEq, Repr

/-- One record's contribution in `calculateDistribution`: `null` increments
`never`, otherwise the same inclusive-upper-bound chain as `rangeAdd`. -/
def distAdd (dist : DayRangeDistribution) (p : ProfileSubscriptionData) :
    DayRangeDistribution :=
  match p.daysToFirstOrder with
  | none => { dist with never := dist.never + 1 }
  | some days =>
    if days ≤ 7 then { dist with r0to7 := dist.r0to7 + 1 }
    else if days ≤ 14 then { dist with r8to14 := dist.r8to14 + 1 }
    else if days ≤ 30 then { dist with r15to30 := dist.r15to30 + 1 }
    else if days ≤ 60 then { dist with r31to60 := dist.r31to60 + 1 }
    else if days ≤ 90 then { dist with r61to90 := dist.r61to90 + 1 }
    else { dist with r91plus := dist.r91plus + 1 }

/-- The script's `calculateDistribution`. -/
def calculateDistribution (data : List ProfileSubscriptionData) :
    DayRangeDistribution :=
  data.foldl distAdd ⟨0, 0, 0, 0, 0, 0, 0⟩

/-- The sum of all seven distribution buckets. -/
def distTotal (dist : DayRangeDistribution) : Nat :=
  dist.r0to7 + dist.r8to14 + dist.r15to30 + dist.r31to60 + dist.r61to90 +
    dist.r91plus + dist.never

end Script


/-- C1: the claim says `conversionRate = convertedEntities / totalEntities`
with `0 <= conversionRate <= 1` on non-empty inputs.  The code multiplies by
100: a single converted profile yields a rate of `100`, not `1`. -/
theorem conversionRate_counterexample_percent_scale :
    (Frontend.calculateStatistics [⟨"A", 0, some 86400000, some 1⟩]).conversionRate = 100 ∧
    ¬ (Frontend.calculateStatistics [⟨"A", 0, some 86400000, some 1⟩]).conversionRate ≤ 1 := by
  have h : (Frontend.calculateStatistics [⟨"A", 0, some 86400000, some 1⟩]).conversionRate
      = 100 := by
    norm_num [Frontend.calculateStatistics, Frontend.withOrders]
  exact ⟨h, by rw [h]; norm_num⟩

/-- C1 (amended): `conversionRate` is `convertedEntities / totalEntities *
100`, bounded by `0 <= conversionRate <= 100`, and `0` on the empty
population, with no division-by-zero error. -/
theorem conversionRate_percent_bounds (profiles : List Frontend.ProfileData) :
    (Frontend.calculateStatistics profiles).conversionRate = conversionRatePctSpec profiles ∧
    0 ≤ (Frontend.calculateStatistics profiles).conversionRate ∧
    (Frontend.calculateStatistics profiles).conversionRate ≤ 100 ∧
    (Frontend.calculateStatistics []).conversionRate = 0 := by
  have hrate : (Frontend.calculateStatistics profiles).conversionRate =
      if 0 < profiles.length then
        ((Frontend.withOrders profiles).length : ℚ) / (profiles.length : ℚ) * 100
      else 0 := rfl
  refine ⟨?_, ?_, ?_, rfl⟩
  · rw [hrate]
    unfold conversionRatePctSpec
    rcases Nat.eq_zero_or_pos profiles.length with h | h
    · simp [h]
    · rw [if_pos h, if_neg (Nat.pos_iff_ne_zero.mp h)]
  · rw [hrate]
    rcases Nat.eq_zero_or_pos profiles.length with h | h
    · simp [h]
    · rw [if_pos h]
      positivity
  · rw [hrate]
    rcases Nat.eq_zero_or_pos profiles.length with h | h
    · simp [h]
    · rw [if_pos h]
      have hle : ((Frontend.withOrders profiles).length : ℚ) ≤ (profiles.length : ℚ) := by
        exact_mod_cast List.length_filter_le _ profiles
      have hpos : (0 : ℚ) < (profiles.length : ℚ) := by exact_mod_cast h
      calc ((Frontend.withOrders profiles).length : ℚ) / (profiles.length : ℚ) * 100
          ≤ 1 * 100 := by
            apply mul_le_mul_of_nonneg_right _ (by norm_num)
            exact (div_le_one hpos).mpr hle
        _ = 100 := by norm_num

/-- C2: the claim admits `conversionTime >= startTime`; the code requires
`orderDate > subscriptionDate` strictly, so an entity converting at exactly
its start timestamp is non-converted (`daysToFirstOrder = null`), not
converted with `daysToConversion = 0`. -/
theorem equal_timestamps_counterexample :
    (Frontend.matchSubscriptionsToOrders [("A", 0)] [("A", 0)]).map
      (fun p => p.daysToFirstOrder) = [none] ∧
    (none : Option Int) ≠ some 0 := by
  constructor
  · rfl
  · decide

/-- C2 (amended): for an entity whose conversion timestamp is strictly
later than its start timestamp, the matcher sets `daysToFirstOrder =
round((conversionTime - startTime) / 86400000 ms)` where `Math.round`
coincides with the spec's round-half-away-from-zero on this positive
difference; equal timestamps are treated as non-converted. -/
theorem matchOne_strict_rounding (orders : List (String × Int)) (pid : String)
    (s c : Int) (h1 : alookup pid orders = some c) (h2 : s < c) :
    Frontend.matchOne orders (pid, s) =
      ⟨pid, s, some c,
        some (specRoundHalfAwayFromZero (((c - s : Int) : ℚ) / (msPerDay : ℚ)))⟩ := by
  unfold Frontend.matchOne
  simp only [h1]
  rw [if_pos h2]
  have hq : (0 : ℚ) ≤ ((c - s : Int) : ℚ) / (msPerDay : ℚ) := by
    apply div_nonneg
    · exact_mod_cast Int.sub_nonneg.mpr (le_of_lt h2)
    · norm_num [msPerDay]
  rw [specRoundHalfAwayFromZero, if_pos hq]
  rfl

/-- Witness for `matchOne_strict_rounding` at a 1.5-day gap. -/
theorem matchOne_strict_rounding_witness :
    alookup "A" [("A", 129600000)] = some 129600000 ∧ (0 : Int) < 129600000 ∧
    Frontend.matchOne [("A", 129600000)] ("A", 0) =
      ⟨"A", 0, some 129600000,
        some (specRoundHalfAwayFromZero (((129600000 - 0 : Int) : ℚ) / (msPerDay : ℚ)))⟩ :=
  ⟨by decide, by decide,
    matchOne_strict_rounding [("A", 129600000)] "A" 0 129600000 (by decide) (by decide)⟩

/-- C3: an entity whose conversion precedes its start still yields a record
(`daysToFirstOrder = null`), the matcher never drops an entry of the starts
map, and a start at day 5 with a conversion at day 2 is counted in
`totalSubscribers` but not in `subscribersWithOrder`. -/
theorem early_conversion_not_dropped (orders : List (String × Int)) (pid : String)
    (s c : Int) (h1 : alookup pid orders = some c) (h2 : c < s) :
    Frontend.matchOne orders (pid, s) = ⟨pid, s, some c, none⟩ ∧
    (∀ subscriptions : List (String × Int),
      (Frontend.matchSubscriptionsToOrders subscriptions orders).length =
        subscriptions.length) ∧
    (Frontend.calculateStatistics
      (Frontend.matchSubscriptionsToOrders [(pid, s)] orders)).totalSubscribers = 1 ∧
    (Frontend.calculateStatistics
      (Frontend.matchSubscriptionsToOrders [(pid, s)] orders)).subscribersWithOrder = 0 := by
  have hone : Frontend.matchOne orders (pid, s) = ⟨pid, s, some c, none⟩ := by
    unfold Frontend.matchOne
    simp only [h1]
    rw [if_neg (not_lt.mpr (le_of_lt h2))]
  have hmatch : Frontend.matchSubscriptionsToOrders [(pid, s)] orders =
      [⟨pid, s, some c, none⟩] := by
    show [Frontend.matchOne orders (pid, s)] = _
    rw [hone]
  refine ⟨hone, fun subscriptions => List.length_map _ _, ?_, ?_⟩
  · show (Frontend.matchSubscriptionsToOrders [(pid, s)] orders).length = 1
    rw [hmatch]
    rfl
  · show (Frontend.withOrders
      (Frontend.matchSubscriptionsToOrders [(pid, s)] orders)).length = 0
    rw [hmatch]
    rfl

/-- Witness for `early_conversion_not_dropped`: start at day 5, conversion
at day 2 (spec scenario C). -/
theorem early_conversion_not_dropped_witness :
    alookup "A" [("A", 172800000)] = some 172800000 ∧
    (172800000 : Int) < 432000000 ∧
    ((Frontend.calculateStatistics
        (Frontend.matchSubscriptionsToOrders [("A", 432000000)]
          [("A", 172800000)])).totalSubscribers = 1 ∧
      (Frontend.calculateStatistics
        (Frontend.matchSubscriptionsToOrders [("A", 432000000)]
          [("A", 172800000)])).subscribersWithOrder = 0) :=
  ⟨by decide, by decide,
    (early_conversion_not_dropped [("A", 172800000)] "A" 432000000 172800000
      (by decide) (by decide)).2.2⟩

/-- The matcher's latency field is always `null` or nonnegative: the strict
`orderDate > subscriptionDate` guard makes the rounded difference ≥ 0. -/
theorem matchOne_days_none_or_nonneg (orders : List (String × Int)) (e : String × Int) :
    (Frontend.matchOne orders e).daysToFirstOrder = none ∨
    ∃ d, (Frontend.matchOne orders e).daysToFirstOrder = some d ∧ 0 ≤ d := by
  unfold Frontend.matchOne
  cases halo : alookup e.1 orders with
  | none => exact Or.inl rfl
  | some o =>
    by_cases hlt : e.2 < o
    · refine Or.inr ⟨jsRound (((o - e.2 : Int) : ℚ) / (msPerDay : ℚ)), ?_, ?_⟩
      · simp only [hlt, if_true]
      · rw [jsRound, Int.floor_nonneg]
        have hq : (0 : ℚ) ≤ ((o - e.2 : Int) : ℚ) / (msPerDay : ℚ) := by
          apply div_nonneg
          · exact_mod_cast Int.sub_nonneg.mpr (le_of_lt hlt)
          · norm_num [msPerDay]
        linarith
    · refine Or.inl ?_
      simp only [hlt, if_false]

/-- C10: every record the matcher produces carries `daysToFirstOrder = null`
or a nonnegative value, so the defensive `>= 0` re-filter of the statistics
stage removes nothing from the matcher's output. -/
theorem matcher_nonneg_filter_is_identity (subscriptions orders : List (String × Int)) :
    ((Frontend.matchSubscriptionsToOrders subscriptions orders).all
      (fun p =>
        match p.daysToFirstOrder with
        | none => true
        | some d => decide (0 ≤ d))) = true ∧
    ((Frontend.withOrders (Frontend.matchSubscriptionsToOrders subscriptions orders)).map
        (fun p => p.daysToFirstOrder.getD 0)).filter (fun d => 0 ≤ d) =
      (Frontend.withOrders (Frontend.matchSubscriptionsToOrders subscriptions orders)).map
        (fun p => p.daysToFirstOrder.getD 0) := by
  constructor
  · rw [List.all_eq_true]
    intro p hp
    obtain ⟨e, _, rfl⟩ := List.mem_map.mp hp
    rcases matchOne_days_none_or_nonneg orders e with hnone | ⟨d, hd, h0⟩
    · rw [hnone]
    · rw [hd]
      exact decide_eq_true h0
  · rw [List.filter_eq_self]
    intro a ha
    obtain ⟨p, hp, rfl⟩ := List.mem_map.mp ha
    rw [Frontend.withOrders, List.mem_filter] at hp
    obtain ⟨e, _, rfl⟩ := List.mem_map.mp hp.1
    rcases matchOne_days_none_or_nonneg orders e with hnone | ⟨d, hd, h0⟩
    · rw [hnone] at hp
      exact absurd hp.2 (by simp)
    · rw [hd]
      exact decide_eq_true h0

/-- Values of a `≤`-sorted list are monotone in the index, through the
defaulting access `getD` as long as the larger index is in range. -/
theorem sorted_getD_mono {l : List Int} (hs : List.Sorted (· ≤ ·) l) {i j : Nat}
    (hij : i ≤ j) (hj : j < l.length) : l.getD i 0 ≤ l.getD j 0 := by
  have hi : i < l.length := lt_of_le_of_lt hij hj
  rw [List.getD_eq_getElem?_getD, List.getD_eq_getElem?_getD,
    List.getElem?_eq_getElem hi, List.getElem?_eq_getElem hj]
  simp only [Option.getD_some]
  rcases Nat.lt_or_ge i j with hlt | hge
  · have h := hs.rel_get_of_lt (a := ⟨i, hi⟩) (b := ⟨j, hj⟩) hlt
    simpa [List.get_eq_getElem] using h
  · have heq : i = j := le_antisymm hij hge
    subst heq
    exact le_refl _

/-- `Math.floor(n * p)` stays below `n` for a percentile rank `p < 1`. -/
theorem pctIndex_lt (n : Nat) (hn : 0 < n) (p : ℚ) (hp1 : p < 1) :
    Frontend.pctIndex n p < n := by
  unfold Frontend.pctIndex
  rcases le_or_lt 0 (⌊(n : ℚ) * p⌋) with h0 | h0
  · rw [Int.toNat_lt h0, Int.floor_lt]
    have hnpos : (0 : ℚ) < (n : ℚ) := by exact_mod_cast hn
    calc (n : ℚ) * p < (n : ℚ) * 1 := by
          exact mul_lt_mul_of_pos_left hp1 hnpos
      _ = ((n : Int) : ℚ) := by push_cast; ring
  · rw [Int.toNat_of_nonpos (le_of_lt h0)]
    exact hn

/-- `Math.floor(n * p)` is monotone in the percentile rank `p`. -/
theorem pctIndex_mono (n : Nat) {p q : ℚ} (hpq : p ≤ q) :
    Frontend.pctIndex n p ≤ Frontend.pctIndex n q := by
  unfold Frontend.pctIndex
  exact Int.toNat_le_toNat (Int.floor_le_floor
    (mul_le_mul_of_nonneg_left hpq (by positivity)))

/-- C9: on a non-empty latency set the nearest-rank percentile estimator is
monotone: `p25 <= p75 <= p90 <= p95`. -/
theorem percentiles_monotone (profiles : List Frontend.ProfileData)
    (h : Frontend.daysToOrderOf profiles ≠ []) :
    (Frontend.calculateStatistics profiles).percentiles.p25 ≤
      (Frontend.calculateStatistics profiles).percentiles.p75 ∧
    (Frontend.calculateStatistics profiles).percentiles.p75 ≤
      (Frontend.calculateStatistics profiles).percentiles.p90 ∧
    (Frontend.calculateStatistics profiles).percentiles.p90 ≤
      (Frontend.calculateStatistics profiles).percentiles.p95 := by
  have hs : List.Sorted (· ≤ ·) (Frontend.daysToOrderOf profiles) :=
    List.sorted_insertionSort _ _
  have hn : 0 < (Frontend.daysToOrderOf profiles).length := List.length_pos.mpr h
  have key : ∀ p q : ℚ, p ≤ q → q < 1 →
      (((Frontend.daysToOrderOf profiles).getD
          (Frontend.pctIndex (Frontend.daysToOrderOf profiles).length p) 0 : Int) : ℚ) ≤
      (((Frontend.daysToOrderOf profiles).getD
          (Frontend.pctIndex (Frontend.daysToOrderOf profiles).length q) 0 : Int) : ℚ) := by
    intro p q hpq hq1
    have := sorted_getD_mono hs (pctIndex_mono _ hpq)
      (pctIndex_lt _ hn q hq1)
    exact_mod_cast this
  exact ⟨key (25 / 100) (75 / 100) (by norm_num) (by norm_num),
    key (75 / 100) (90 / 100) (by norm_num) (by norm_num),
    key (90 / 100) (95 / 100) (by norm_num) (by norm_num)⟩

/-- Witness for `percentiles_monotone` on a one-element latency set. -/
theorem percentiles_monotone_witness :
    Frontend.daysToOrderOf [⟨"A", 0, some 86400000, some 1⟩] ≠ [] ∧
    ((Frontend.calculateStatistics [⟨"A", 0, some 86400000, some 1⟩]).percentiles.p25 ≤
      (Frontend.calculateStatistics [⟨"A", 0, some 86400000, some 1⟩]).percentiles.p75 ∧
    (Frontend.calculateStatistics [⟨"A", 0, some 86400000, some 1⟩]).percentiles.p75 ≤
      (Frontend.calculateStatistics [⟨"A", 0, some 86400000, some 1⟩]).percentiles.p90 ∧
    (Frontend.calculateStatistics [⟨"A", 0, some 86400000, some 1⟩]).percentiles.p90 ≤
      (Frontend.calculateStatistics [⟨"A", 0, some 86400000, some 1⟩]).percentiles.p95) :=
  ⟨by decide, percentiles_monotone [⟨"A", 0, some 86400000, some 1⟩] (by decide)⟩

/-- Each `distAdd` step increments exactly one bucket. -/
theorem distTotal_distAdd (dist : Script.DayRangeDistribution)
    (p : Script.ProfileSubscriptionData) :
    Script.distTotal (Script.distAdd dist p) = Script.distTotal dist + 1 := by
  unfold Script.distAdd
  cases p.daysToFirstOrder with
  | none =>
    dsimp only
    simp only [Script.distTotal]
    omega
  | some days =>
    dsimp only
    split_ifs <;> simp only [Script.distTotal] <;> omega

/-- Folding `distAdd` adds the list length to the bucket total. -/
theorem foldl_distAdd_total (data : List Script.ProfileSubscriptionData) :
    ∀ dist, Script.distTotal (data.foldl Script.distAdd dist) =
      Script.distTotal dist + data.length := by
  induction data with
  | nil => intro dist; simp
  | cons p t ih =>
    intro dist
    rw [List.foldl_cons, ih, distTotal_distAdd]
    simp only [List.length_cons]
    omega

/-- C8: the distribution's seven buckets partition the record set — their
counts always sum to the number of records — with right-closed boundaries:
a `null` latency increments only `never`, exactly 7 goes to `0-7`, and
exactly 8 goes to `8-14`. -/
theorem distribution_buckets_partition (data : List Script.ProfileSubscriptionData) :
    Script.distTotal (Script.calculateDistribution data) = data.length ∧
    (∀ (dist : Script.DayRangeDistribution) (pid : String) (s : Int) (o : Option Int),
      Script.distAdd dist ⟨pid, s, o, some 7⟩ = { dist with r0to7 := dist.r0to7 + 1 } ∧
      Script.distAdd dist ⟨pid, s, o, some 8⟩ = { dist with r8to14 := dist.r8to14 + 1 } ∧
      Script.distAdd dist ⟨pid, s, o, none⟩ = { dist with never := dist.never + 1 }) := by
  constructor
  · show Script.distTotal (data.foldl Script.distAdd ⟨0, 0, 0, 0, 0, 0, 0⟩) = data.length
    rw [foldl_distAdd_total]
    simp [Script.distTotal]
  · intro dist pid s o
    refine ⟨?_, ?_, ?_⟩ <;> simp [Script.distAdd]

/-- Inserting one element into its group grows the total group size by 1. -/
theorem insertGroup_length_sum {κ α : Type} [DecidableEq κ] (k : κ) (x : α)
    (cs : List (κ × List α)) :
    ((insertGroup k x cs).map (fun kv => kv.2.length)).sum =
      ((cs.map (fun kv => kv.2.length)).sum) + 1 := by
  induction cs with
  | nil => simp [insertGroup]
  | cons hd t ih =>
    rcases hd with ⟨a, l⟩
    unfold insertGroup
    by_cases h : a = k
    · rw [if_pos h]
      simp
      omega
    · rw [if_neg h]
      simp only [List.map_cons, List.sum_cons, ih]
      omega

/-- Folding the grouping step adds the data length to the total group
size. -/
theorem foldl_insertGroup_sum {κ α : Type} [DecidableEq κ] (key : α → κ)
    (data : List α) :
    ∀ cs : List (κ × List α),
      (((data.foldl (fun cs x => insertGroup (key x) x cs) cs).map
        (fun kv => kv.2.length)).sum) =
        ((cs.map (fun kv => kv.2.length)).sum) + data.length := by
  induction data with
  | nil => intro cs; simp
  | cons p t ih =>
    intro cs
    rw [List.foldl_cons, ih, insertGroup_length_sum]
    simp only [List.length_cons]
    omega

/-- `groupByKey` neither loses nor duplicates elements: group sizes sum to
the input length. -/
theorem groupByKey_length_sum {κ α : Type} [DecidableEq κ] (key : α → κ)
    (data : List α) :
    ((groupByKey key data).map (fun kv => kv.2.length)).sum = data.length := by
  show (((data.foldl (fun cs x => insertGroup (key x) x cs) []).map
    (fun kv => kv.2.length)).sum) = data.length
  rw [foldl_insertGroup_sum]
  simp

/-- C7: for every record list and every granularity, the cohort buckets'
`subscribers` counts sum to the ungrouped population size — every record
lands in exactly one cohort. -/
theorem cohort_sizes_partition (data : List Script.ProfileSubscriptionData)
    (g : Script.CohortPeriod) :
    ((Script.generateCohortData data g).map (fun c => c.subscribers)).sum =
      data.length := by
  show ((((groupByKey (fun p => Script.cohortKeyOf g p.subscribedDate) data).map
      (fun kv => Script.mkCohortPoint kv.1 kv.2)).insertionSort
      (fun a b => a.signupDate ≤ b.signupDate)).map
      (fun c => c.subscribers)).sum = data.length
  have hperm := List.perm_insertionSort
    (fun a b : Script.CohortDataPoint => a.signupDate ≤ b.signupDate)
    ((groupByKey (fun p => Script.cohortKeyOf g p.subscribedDate) data).map
      (fun kv => Script.mkCohortPoint kv.1 kv.2))
  rw [(hperm.map (fun c => c.subscribers)).sum_eq, List.map_map]
  have hcomp : ((fun c : Script.CohortDataPoint => c.subscribers) ∘
      (fun kv : Script.CohortKey × List Script.ProfileSubscriptionData =>
        Script.mkCohortPoint kv.1 kv.2)) = fun kv => kv.2.length := rfl
  rw [hcomp, groupByKey_length_sum]

/-- `Math.floor(n * 0.5)` is the lower-middle index `n / 2`. -/
theorem floor_half_index (n : Nat) : (⌊(n : ℚ) * (5 / 10)⌋).toNat = n / 2 := by
  have h : (n : ℚ) * (5 / 10) = ((n : ℤ) : ℚ) / ((2 : ℕ) : ℚ) := by push_cast; ring
  rw [h, Rat.floor_intCast_div_natCast]
  omega

/-- C4: the claim includes every cohort's median, but the script's
per-cohort median is the classic even/odd-average: on latencies `[1, 3]`
the cohort median is `2`, while the nearest-rank rule at index
`floor(2 * 0.5) = 1` yields `3`. -/
theorem cohort_median_classic_counterexample :
    ((Script.generateCohortData
        [⟨"A", 0, some 86400000, some 1⟩, ⟨"B", 0, some (3 * 86400000), some 3⟩]
        Script.CohortPeriod.week).map (fun c => c.medianDaysToOrder)) = [2] ∧
    specNearestRank [1, 3] (5 / 10) = 3 ∧ (2 : ℚ) ≠ 3 := by
  refine ⟨?_, ?_, by norm_num⟩
  · have hg : groupByKey
        (fun p : Script.ProfileSubscriptionData =>
          Script.cohortKeyOf Script.CohortPeriod.week p.subscribedDate)
        [⟨"A", 0, some 86400000, some 1⟩, ⟨"B", 0, some (3 * 86400000), some 3⟩] =
        [(Script.CohortKey.week (-3),
          [⟨"A", 0, some 86400000, some 1⟩, ⟨"B", 0, some (3 * 86400000), some 3⟩])] := by
      decide
    have hmap : Script.generateCohortData
        [⟨"A", 0, some 86400000, some 1⟩, ⟨"B", 0, some (3 * 86400000), some 3⟩]
        Script.CohortPeriod.week =
        [Script.mkCohortPoint (Script.CohortKey.week (-3))
          [⟨"A", 0, some 86400000, some 1⟩, ⟨"B", 0, some (3 * 86400000), some 3⟩]] := by
      show ((groupByKey
        (fun p : Script.ProfileSubscriptionData =>
          Script.cohortKeyOf Script.CohortPeriod.week p.subscribedDate)
        [⟨"A", 0, some 86400000, some 1⟩, ⟨"B", 0, some (3 * 86400000), some 3⟩]).map
          (fun kv => Script.mkCohortPoint kv.1 kv.2)).insertionSort
          (fun a b => a.signupDate ≤ b.signupDate) = _
      rw [hg]
      rfl
    rw [hmap]
    have hswo : Script.subscribersWithOrderOf
        [⟨"A", 0, some 86400000, some 1⟩, ⟨"B", 0, some (3 * 86400000), some 3⟩] =
        [⟨"A", 0, some 86400000, some 1⟩, ⟨"B", 0, some (3 * 86400000), some 3⟩] := by
      decide
    simp only [List.map_cons, List.map_nil]
    have hm : (Script.mkCohortPoint (Script.CohortKey.week (-3))
        [⟨"A", 0, some 86400000, some 1⟩,
          ⟨"B", 0, some (3 * 86400000), some 3⟩]).medianDaysToOrder = 2 := by
      simp [Script.mkCohortPoint, hswo, sortInt, List.insertionSort, List.orderedInsert]
      norm_num
    rw [hm]
  · rw [specNearestRank]
    norm_num

/-- C4 (amended): `medianDays` is the nearest-rank percentile at p = 0.5
(index `floor(|D| * 0.5)`, 0 on empty `D`) for the overall statistics of
both engines and for the frontend's cohorts; the script's per-cohort median
instead uses the classic even/odd-average rule. -/
theorem median_is_nearest_rank (profiles group : List Frontend.ProfileData)
    (data : List Script.ProfileSubscriptionData) :
    (Frontend.calculateStatistics profiles).medianDaysToFirstOrder =
      specNearestRank (Frontend.daysToOrderOf profiles) (5 / 10) ∧
    (Script.calculateStatistics data).medianDaysToFirstOrder =
      specNearestRank (sortInt ((Script.subscribersWithOrderOf data).map
        (fun d => d.daysToFirstOrder.getD 0))) (5 / 10) ∧
    (Frontend.mkCohortPoint group).medianDaysToOrder =
      specNearestRank (sortInt ((group.filter
        (fun p =>
          match p.daysToFirstOrder with
          | some v => decide (0 ≤ v)
          | none => false)).map (fun p => p.daysToFirstOrder.getD 0))) (5 / 10) := by
  refine ⟨?_, ?_, ?_⟩
  · have hproj : (Frontend.calculateStatistics profiles).medianDaysToFirstOrder =
        if 0 < (Frontend.daysToOrderOf profiles).length then
          (((Frontend.daysToOrderOf profiles).getD
            ((Frontend.daysToOrderOf profiles).length / 2) 0 : Int) : ℚ)
        else 0 := rfl
    rw [hproj, specNearestRank]
    rcases Nat.eq_zero_or_pos (Frontend.daysToOrderOf profiles).length with h | h
    · rw [if_neg (by omega), if_pos h]
    · rw [if_pos h, if_neg (by omega), floor_half_index]
  · show (Script.calculateStatistics data).medianDaysToFirstOrder = _
    unfold Script.calculateStatistics
    dsimp only
    by_cases h : ((Script.subscribersWithOrderOf data).map
        (fun d => d.daysToFirstOrder.getD 0)).length = 0
    · rw [if_pos h]
      have hnil : (Script.subscribersWithOrderOf data).map
          (fun d => d.daysToFirstOrder.getD 0) = [] := List.length_eq_zero.mp h
      rw [hnil]
      rw [specNearestRank]
      rfl
    · rw [if_neg h]
      have hlen : (sortInt ((Script.subscribersWithOrderOf data).map
          (fun d => d.daysToFirstOrder.getD 0))).length =
          ((Script.subscribersWithOrderOf data).map
            (fun d => d.daysToFirstOrder.getD 0)).length :=
        (List.perm_insertionSort _ _).length_eq
      rw [specNearestRank, if_neg (by omega)]
      show Script.percentile _ (5 / 10) = _
      rw [Script.percentile]
  · have hproj : (Frontend.mkCohortPoint group).medianDaysToOrder =
        if 0 < (sortInt ((group.filter
            (fun p =>
              match p.daysToFirstOrder with
              | some v => decide (0 ≤ v)
              | none => false)).map (fun p => p.daysToFirstOrder.getD 0))).length then
          (((sortInt ((group.filter
              (fun p =>
                match p.daysToFirstOrder with
                | some v => decide (0 ≤ v)
                | none => false)).map (fun p => p.daysToFirstOrder.getD 0))).getD
            ((sortInt ((group.filter
              (fun p =>
                match p.daysToFirstOrder with
                | some v => decide (0 ≤ v)
                | none => false)).map (fun p => p.daysToFirstOrder.getD 0))).length / 2)
            0 : Int) : ℚ)
        else 0 := rfl
    rw [hproj, specNearestRank]
    rcases Nat.eq_zero_or_pos (sortInt ((group.filter
        (fun p =>
          match p.daysToFirstOrder with
          | some v => decide (0 ≤ v)
          | none => false)).map (fun p => p.daysToFirstOrder.getD 0))).length with h | h
    · rw [if_neg (by omega), if_pos h]
    · rw [if_pos h, if_neg (by omega), floor_half_index]

/-- Shifting a timestamp by whole days shifts its day number likewise. -/
theorem dayOf_add_days (ms k : Int) : dayOf (ms + k * msPerDay) = dayOf ms + k := by
  unfold dayOf
  rw [Int.fdiv_eq_ediv _ (by norm_num [msPerDay]),
    Int.fdiv_eq_ediv _ (by norm_num [msPerDay]),
    Int.add_mul_ediv_right _ _ (by norm_num [msPerDay])]

/-- The Monday shift moves the day number by the weekday offset. -/
theorem dayOf_mondayMsOf (ms : Int) :
    dayOf (Script.mondayMsOf ms) =
      dayOf ms + ((if getDayJS ms = 0 then -6 else 1) - getDayJS ms) := by
  unfold Script.mondayMsOf
  rw [dayOf_add_days]

/-- The `week` branch really lands on a Monday. -/
theorem getDayJS_mondayMsOf (ms : Int) : getDayJS (Script.mondayMsOf ms) = 1 := by
  show (dayOf (Script.mondayMsOf ms) + 4) % 7 = 1
  rw [dayOf_mondayMsOf]
  unfold getDayJS
  split_ifs with h <;> omega

/-- C5: the claim says each week cohort's `periodStartDate` is the Monday
on or before the entity's start; the code instead emits the first cohort
record's own date.  A single Wednesday 1970-01-07 start yields `signupDate`
day 6 while its Monday (the cohort key's day) is day 4. -/
theorem week_periodStartDate_counterexample :
    ((Script.generateCohortData [⟨"A", 6 * 86400000, none, none⟩]
        Script.CohortPeriod.week).map (fun c => c.signupDate)) = [6] ∧
    ((Script.generateCohortData [⟨"A", 6 * 86400000, none, none⟩]
        Script.CohortPeriod.week).map (fun c => c.cohortLabel)) =
      [Script.CohortKey.week 4] ∧
    (6 : Int) ≠ 4 := by
  refine ⟨by decide, by decide, by decide⟩

/-- C5 (amended): under week granularity the cohort KEY is the Monday on or
before the start time — that day is a Monday, lies at most 6 days back, and
all 7 days of a Monday week share the key — and the returned buckets are
sorted ascending by `signupDate`; but `signupDate` (the period-start field)
is the first cohort record's date, not that Monday. -/
theorem week_cohorts_monday_aligned :
    (∀ ms : Int, getDayJS (Script.mondayMsOf ms) = 1 ∧
      dayOf (Script.mondayMsOf ms) ≤ dayOf ms ∧
      dayOf ms ≤ dayOf (Script.mondayMsOf ms) + 6) ∧
    (∀ (ms : Int) (k : Fin 7),
      Script.cohortKeyOf Script.CohortPeriod.week
        (Script.mondayMsOf ms + ((k : ℕ) : ℤ) * msPerDay) =
      Script.cohortKeyOf Script.CohortPeriod.week ms) ∧
    (∀ (data : List Script.ProfileSubscriptionData) (g : Script.CohortPeriod),
      List.Sorted (fun a b : Script.CohortDataPoint => a.signupDate ≤ b.signupDate)
        (Script.generateCohortData data g)) := by
  refine ⟨?_, ?_, ?_⟩
  · intro ms
    refine ⟨getDayJS_mondayMsOf ms, ?_, ?_⟩ <;>
      · rw [dayOf_mondayMsOf]
        unfold getDayJS
        split_ifs with h <;> omega
  · intro ms k
    show Script.CohortKey.week
        (dayOf (Script.mondayMsOf (Script.mondayMsOf ms + ((k : ℕ) : ℤ) * msPerDay))) =
      Script.CohortKey.week (dayOf (Script.mondayMsOf ms))
    have h1 : (dayOf (Script.mondayMsOf ms) + 4) % 7 = 1 := getDayJS_mondayMsOf ms
    have hk0 : (0 : ℤ) ≤ ((k : ℕ) : ℤ) := Int.natCast_nonneg _
    have hk6 : ((k : ℕ) : ℤ) < 7 := by exact_mod_cast k.isLt
    congr 1
    rw [dayOf_mondayMsOf]
    unfold getDayJS
    rw [dayOf_add_days]
    split_ifs with h <;> omega
  · intro data g
    show List.Sorted _
      (((groupByKey (fun p => Script.cohortKeyOf g p.subscribedDate) data).map
        (fun kv => Script.mkCohortPoint kv.1 kv.2)).insertionSort
        (fun a b => a.signupDate ≤ b.signupDate))
    exact List.sorted_insertionSort _ _

/-- Unfolding lemma for `alookup` on a cons cell. -/
theorem alookup_cons {κ β : Type} [DecidableEq κ] (k a : κ) (b : β) (t : List (κ × β)) :
    alookup k ((a, b) :: t) = if a = k then some b else alookup k t := rfl

/-- A key is absent from an association list iff no entry carries it. -/
theorem alookup_eq_none_iff {κ β : Type} [DecidableEq κ] (k : κ) (m : List (κ × β)) :
    alookup k m = none ↔ k ∉ m.map Prod.fst := by
  induction m with
  | nil => simp [alookup]
  | cons hd t ih =>
    rcases hd with ⟨a, b⟩
    unfold alookup
    by_cases h : a = k
    · simp [h]
    · simp [h, ih, Ne.symm h]

/-- Lookup distributes over appending: the left list wins. -/
theorem alookup_append {κ β : Type} [DecidableEq κ] (k : κ) (m l : List (κ × β)) :
    alookup k (m ++ l) =
      match alookup k m with
      | some v => some v
      | none => alookup k l := by
  induction m with
  | nil => simp [alookup]
  | cons hd t ih =>
    rcases hd with ⟨a, b⟩
    show (if a = k then some b else alookup k (t ++ l)) =
      match (if a = k then some b else alookup k t) with
      | some v => some v
      | none => alookup k l
    by_cases h : a = k
    · simp only [if_pos h]
    · simp only [if_neg h]
      exact ih

/-- Replacing the value at `p` does not affect lookups of other keys. -/
theorem alookup_replace_ne {κ β : Type} [DecidableEq κ] {q p : κ} (d : β)
    (m : List (κ × β)) (h : q ≠ p) :
    alookup q (m.map (fun kv => if kv.1 = p then (p, d) else kv)) = alookup q m := by
  induction m with
  | nil => rfl
  | cons hd t ih =>
    rcases hd with ⟨a, b⟩
    show alookup q ((if a = p then (p, d) else (a, b)) ::
      t.map (fun kv => if kv.1 = p then (p, d) else kv)) = alookup q ((a, b) :: t)
    by_cases hap : a = p
    · rw [if_pos hap]
      show (if p = q then some d
          else alookup q (t.map (fun kv => if kv.1 = p then (p, d) else kv))) =
        if a = q then some b else alookup q t
      rw [if_neg (fun hpq : p = q => h hpq.symm),
        if_neg (fun haq : a = q => h (haq ▸ hap)), ih]
    · rw [if_neg hap]
      show (if a = q then some b
          else alookup q (t.map (fun kv => if kv.1 = p then (p, d) else kv))) =
        if a = q then some b else alookup q t
      by_cases haq : a = q
      · rw [if_pos haq, if_pos haq]
      · rw [if_neg haq, if_neg haq, ih]

/-- Replacing the value at a present key makes its lookup the new value. -/
theorem alookup_replace_self {κ β : Type} [DecidableEq κ] (p : κ) (d : β)
    (m : List (κ × β)) {ex : β} (h : alookup p m = some ex) :
    alookup p (m.map (fun kv => if kv.1 = p then (p, d) else kv)) = some d := by
  induction m with
  | nil => cases h
  | cons hd t ih =>
    rcases hd with ⟨a, b⟩
    show alookup p ((if a = p then (p, d) else (a, b)) ::
      t.map (fun kv => if kv.1 = p then (p, d) else kv)) = some d
    by_cases hap : a = p
    · rw [if_pos hap]
      show (if p = p then some d
        else alookup p (t.map (fun kv => if kv.1 = p then (p, d) else kv))) = some d
      rw [if_pos rfl]
    · rw [if_neg hap]
      show (if a = p then some b
        else alookup p (t.map (fun kv => if kv.1 = p then (p, d) else kv))) = some d
      rw [if_neg hap]
      have ht : alookup p t = some ex := by
        have := h
        unfold alookup at this
        rwa [if_neg hap] at this
      exact ih ht

/-- Replacing at an absent key is the identity. -/
theorem replace_absent {κ β : Type} [DecidableEq κ] (p : κ) (d : β)
    (m : List (κ × β)) (h : alookup p m = none) :
    m.map (fun kv => if kv.1 = p then (p, d) else kv) = m := by
  induction m with
  | nil => rfl
  | cons hd t ih =>
    rcases hd with ⟨a, b⟩
    have hap : ¬ a = p := by
      intro hap
      unfold alookup at h
      rw [if_pos hap] at h
      cases h
    have ht : alookup p t = none := by
      unfold alookup at h
      rwa [if_neg hap] at h
    show (if a = p then (p, d) else (a, b)) :: _ = _
    rw [if_neg hap, ih ht]

/-- Two replacements at the same key collapse to the last one. -/
theorem replace_replace {κ β : Type} [DecidableEq κ] (p : κ) (d1 d2 : β)
    (m : List (κ × β)) :
    (m.map (fun kv => if kv.1 = p then (p, d1) else kv)).map
      (fun kv => if kv.1 = p then (p, d2) else kv) =
    m.map (fun kv => if kv.1 = p then (p, d2) else kv) := by
  rw [List.map_map]
  apply List.map_congr_left
  intro kv _
  show (if (if kv.1 = p then (p, d1) else kv).1 = p then (p, d2)
    else if kv.1 = p then (p, d1) else kv) = _
  by_cases h : kv.1 = p
  · simp [h]
  · simp only [if_neg h]

/-- Replacements at distinct keys commute. -/
theorem replace_comm {κ β : Type} [DecidableEq κ] {p1 p2 : κ} (d1 d2 : β)
    (m : List (κ × β)) (h : p1 ≠ p2) :
    (m.map (fun kv => if kv.1 = p1 then (p1, d1) else kv)).map
      (fun kv => if kv.1 = p2 then (p2, d2) else kv) =
    (m.map (fun kv => if kv.1 = p2 then (p2, d2) else kv)).map
      (fun kv => if kv.1 = p1 then (p1, d1) else kv) := by
  rw [List.map_map, List.map_map]
  apply List.map_congr_left
  intro kv _
  show (if (if kv.1 = p1 then (p1, d1) else kv).1 = p2 then (p2, d2)
      else if kv.1 = p1 then (p1, d1) else kv) =
    (if (if kv.1 = p2 then (p2, d2) else kv).1 = p1 then (p1, d1)
      else if kv.1 = p2 then (p2, d2) else kv)
  by_cases h1 : kv.1 = p1 <;> by_cases h2 : kv.1 = p2
  · exact absurd (h1.symm.trans h2) h
  · simp only [if_pos h1, if_neg h2, if_neg h, if_pos h1]
  · simp only [if_neg h1, if_pos h2, if_neg (Ne.symm h), if_pos h2]
  · simp only [if_neg h1, if_neg h2]

/-- Replacing preserves the key sequence. -/
theorem keys_replace {κ β : Type} [DecidableEq κ] (p : κ) (d : β)
    (m : List (κ × β)) :
    (m.map (fun kv => if kv.1 = p then (p, d) else kv)).map Prod.fst =
      m.map Prod.fst := by
  rw [List.map_map]
  apply List.map_congr_left
  intro kv _
  show (if kv.1 = p then (p, d) else kv).1 = kv.1
  by_cases h : kv.1 = p
  · rw [if_pos h, h]
  · rw [if_neg h]

/-- Lookup at the updated key after `updMin`: the kept value is the minimum
(ties keeping the stored value). -/
theorem alookup_updMin_self (m : List (String × Int)) (p : String) (d : Int) :
    alookup p (updMin m p d) =
      some (match alookup p m with
        | none => d
        | some ex => if d < ex then d else ex) := by
  unfold updMin
  cases halo : alookup p m with
  | none =>
    dsimp only
    rw [alookup_append, halo]
    show alookup p [(p, d)] = some d
    show (if p = p then some d else alookup p []) = some d
    rw [if_pos rfl]
  | some ex =>
    dsimp only
    by_cases hlt : d < ex
    · rw [if_pos hlt, alookup_replace_self p d m halo, if_pos hlt]
    · rw [if_neg hlt, halo, if_neg hlt]

/-- `updMin` at one key does not disturb lookups of other keys. -/
theorem alookup_updMin_ne {q p : String} (m : List (String × Int)) (d : Int)
    (h : q ≠ p) : alookup q (updMin m p d) = alookup q m := by
  unfold updMin
  cases halo : alookup p m with
  | none =>
    dsimp only
    rw [alookup_append]
    cases hq : alookup q m with
    | some v => rfl
    | none =>
      show alookup q [(p, d)] = none
      show (if p = q then some d else alookup q []) = none
      rw [if_neg (fun hpq : p = q => h hpq.symm)]
      rfl
  | some ex =>
    dsimp only
    by_cases hlt : d < ex
    · rw [if_pos hlt]
      exact alookup_replace_ne d m h
    · rw [if_neg hlt]

/-- `updMin` keeps the key sequence duplicate-free. -/
theorem keysNodup_updMin (m : List (String × Int)) (p : String) (d : Int)
    (h : (m.map Prod.fst).Nodup) : ((updMin m p d).map Prod.fst).Nodup := by
  unfold updMin
  cases halo : alookup p m with
  | none =>
    dsimp only
    rw [List.map_append]
    refine List.Nodup.append h (List.nodup_singleton p) ?_
    intro a ham hap
    have hap2 : a = p := by simpa using hap
    exact (alookup_eq_none_iff p m).mp halo (hap2 ▸ ham)
  | some ex =>
    dsimp only
    by_cases hlt : d < ex
    · rw [if_pos hlt, keys_replace]
      exact h
    · rw [if_neg hlt]
      exact h

/-- Lookup respects permutation of a duplicate-free association list. -/
theorem alookup_perm {κ β : Type} [DecidableEq κ] (k : κ) {m1 m2 : List (κ × β)}
    (h : m1.Perm m2) : (m1.map Prod.fst).Nodup → alookup k m1 = alookup k m2 := by
  induction h with
  | nil => exact fun _ => rfl
  | cons x h ih =>
    intro hnd
    rcases x with ⟨a, b⟩
    show (if a = k then some b else alookup k _) = (if a = k then some b else alookup k _)
    by_cases hak : a = k
    · rw [if_pos hak, if_pos hak]
    · rw [if_neg hak, if_neg hak]
      exact ih (List.Nodup.of_cons hnd)
  | swap x y l =>
    intro hnd
    rcases x with ⟨a, b⟩
    rcases y with ⟨c, e⟩
    have hca : c ≠ a := by
      have := (List.nodup_cons.mp hnd).1
      intro hceq
      exact this (hceq ▸ List.mem_cons_self a _)
    show (if c = k then some e else if a = k then some b else alookup k l) =
      (if a = k then some b else if c = k then some e else alookup k l)
    by_cases hck : c = k <;> by_cases hak : a = k
    · exact absurd (hck.trans hak.symm) hca
    · simp [hck, hak]
    · simp [hck, hak]
    · simp [hck, hak]
  | trans h12 _ ih1 ih2 =>
    intro hnd
    rw [ih1 hnd, ih2 ((h12.map Prod.fst).nodup_iff.mp hnd)]

/-- A successful lookup splits the list around its first hit. -/
theorem alookup_some_split {κ β : Type} [DecidableEq κ] {a : κ} {b : β} :
    ∀ {m : List (κ × β)}, alookup a m = some b →
      ∃ u v, m = u ++ (a, b) :: v ∧ a ∉ u.map Prod.fst
  | [], h => by cases h
  | (c, e) :: t, h => by
    by_cases hca : c = a
    · have hbe : e = b := by
        have := h
        unfold alookup at this
        rw [if_pos hca] at this
        exact Option.some.inj this
      exact ⟨[], t, by rw [hca, hbe]; rfl, by simp⟩
    · have ht : alookup a t = some b := by
        have := h
        unfold alookup at this
        rwa [if_neg hca] at this
      obtain ⟨u, v, huv, hnu⟩ := alookup_some_split ht
      refine ⟨(c, e) :: u, v, by rw [huv]; rfl, ?_⟩
      simp only [List.map_cons, List.mem_cons]
      rintro (hc | hu)
      · exact hca hc.symm
      · exact hnu hu

/-- Two duplicate-free association lists with identical lookups are
permutations of each other. -/
theorem perm_of_alookup_eq {κ β : Type} [DecidableEq κ] :
    ∀ (m1 m2 : List (κ × β)), (m1.map Prod.fst).Nodup →
      (m2.map Prod.fst).Nodup → (∀ k, alookup k m1 = alookup k m2) → m1.Perm m2
  | [], m2, _, _, h => by
    cases m2 with
    | nil => exact List.Perm.refl _
    | cons hd t =>
      rcases hd with ⟨a, b⟩
      have := h a
      rw [alookup_cons, if_pos rfl,
        show alookup a ([] : List (κ × β)) = none from rfl] at this
      cases this
  | (a, b) :: t, m2, hnd1, hnd2, h => by
    have hab : alookup a m2 = some b := by
      have := h a
      rw [alookup_cons, if_pos rfl] at this
      exact this.symm
    obtain ⟨u, v, huv, hnu⟩ := alookup_some_split hab
    have hmid : m2.Perm ((a, b) :: (u ++ v)) := by
      rw [huv]
      exact List.perm_middle
    have hnd3 : (((a, b) :: (u ++ v)).map Prod.fst).Nodup :=
      (hmid.map Prod.fst).nodup_iff.mp hnd2
    have hna : a ∉ (u ++ v).map Prod.fst := by
      have := (List.nodup_cons.mp hnd3).1
      simpa using this
    have hlk : ∀ k, alookup k t = alookup k (u ++ v) := by
      intro k
      by_cases hk : k = a
      · subst hk
        have hlt : alookup k t = none := by
          rw [alookup_eq_none_iff]
          exact (List.nodup_cons.mp hnd1).1
        have hruv : alookup k (u ++ v) = none := by
          rw [alookup_eq_none_iff]
          exact hna
        rw [hlt, hruv]
      · have hstep := h k
        rw [alookup_cons, if_neg (fun hak : a = k => hk hak.symm)] at hstep
        rw [hstep, alookup_perm k hmid hnd2, alookup_cons,
          if_neg (fun hak : a = k => hk hak.symm)]
    have hperm : t.Perm (u ++ v) :=
      perm_of_alookup_eq t (u ++ v) (List.Nodup.of_cons hnd1)
        (List.Nodup.of_cons hnd3) hlk
    exact (hperm.cons (a, b)).trans hmid.symm

/-- Two `updMin` updates commute at the level of lookups. -/
theorem alookup_updMin_comm (m : List (String × Int)) (p1 p2 : String)
    (d1 d2 : Int) (k : String) :
    alookup k (updMin (updMin m p1 d1) p2 d2) =
      alookup k (updMin (updMin m p2 d2) p1 d1) := by
  by_cases hk2 : k = p2 <;> by_cases hk1 : k = p1
  · subst hk1
    have hp : k = p2 := hk2
    subst hp
    rw [alookup_updMin_self, alookup_updMin_self, alookup_updMin_self,
      alookup_updMin_self]
    simp only [Option.some.injEq]
    cases halo : alookup k m <;> dsimp only <;> split_ifs <;> first | rfl | omega
  · subst hk2
    rw [alookup_updMin_self, alookup_updMin_ne _ _ hk1,
      alookup_updMin_ne _ _ hk1, alookup_updMin_self]
  · subst hk1
    rw [alookup_updMin_ne _ _ hk2, alookup_updMin_self,
      alookup_updMin_self, alookup_updMin_ne _ _ hk2]
  · rw [alookup_updMin_ne _ _ hk2, alookup_updMin_ne _ _ hk1,
      alookup_updMin_ne _ _ hk1, alookup_updMin_ne _ _ hk2]

/-- The event-reducing fold maps lookup-equivalent accumulators to
lookup-equivalent results. -/
theorem alookup_foldl_step_congr (l : List Frontend.KEvent) :
    ∀ m1 m2 : List (String × Int), (∀ k, alookup k m1 = alookup k m2) →
      ∀ k, alookup k (l.foldl (fun acc event =>
          match event.profileId, event.datetime with
          | some pid, some dt => updMin acc pid dt
          | _, _ => acc) m1) =
        alookup k (l.foldl (fun acc event =>
          match event.profileId, event.datetime with
          | some pid, some dt => updMin acc pid dt
          | _, _ => acc) m2) := by
  induction l with
  | nil => exact fun m1 m2 h k => h k
  | cons e t ih =>
    intro m1 m2 h k
    rw [List.foldl_cons, List.foldl_cons]
    apply ih
    intro q
    rcases e with ⟨pid, dt⟩
    cases pid <;> cases dt <;> dsimp only
    · exact h q
    · exact h q
    · exact h q
    · rename_i p d
      by_cases hq : q = p
      · subst hq
        rw [alookup_updMin_self, alookup_updMin_self, h q]
      · rw [alookup_updMin_ne _ _ hq, alookup_updMin_ne _ _ hq]
        exact h q

/-- Permuting the event list does not change any lookup of the reduced
first-occurrence map. -/
theorem alookup_foldl_step_perm {l1 l2 : List Frontend.KEvent} (h : l1.Perm l2) :
    ∀ (m : List (String × Int)) (k : String),
      alookup k (l1.foldl (fun acc event =>
          match event.profileId, event.datetime with
          | some pid, some dt => updMin acc pid dt
          | _, _ => acc) m) =
        alookup k (l2.foldl (fun acc event =>
          match event.profileId, event.datetime with
          | some pid, some dt => updMin acc pid dt
          | _, _ => acc) m) := by
  induction h with
  | nil => intro m k; rfl
  | cons x _ ih =>
    intro m k
    rw [List.foldl_cons, List.foldl_cons]
    exact ih _ k
  | swap x y l =>
    intro m k
    rw [List.foldl_cons, List.foldl_cons, List.foldl_cons, List.foldl_cons]
    apply alookup_foldl_step_congr
    intro q
    rcases x with ⟨px, dx⟩
    rcases y with ⟨py, dy⟩
    cases px <;> cases dx <;> cases py <;> cases dy <;>
      first
        | rfl
        | apply alookup_updMin_comm
  | trans _ _ ih1 ih2 =>
    intro m k
    rw [ih1, ih2]

/-- The reduced map's keys stay duplicate-free along the fold. -/
theorem keysNodup_foldl_step (l : List Frontend.KEvent) :
    ∀ m : List (String × Int), (m.map Prod.fst).Nodup →
      ((l.foldl (fun acc event =>
          match event.profileId, event.datetime with
          | some pid, some dt => updMin acc pid dt
          | _, _ => acc) m).map Prod.fst).Nodup := by
  induction l with
  | nil => exact fun m h => h
  | cons e t ih =>
    intro m h
    rw [List.foldl_cons]
    apply ih
    rcases e with ⟨pid, dt⟩
    cases pid <;> cases dt <;> dsimp only
    · exact h
    · exact h
    · exact h
    · exact keysNodup_updMin _ _ _ h

/-- The subscription reducer sends permuted event lists to permuted maps. -/
theorem processSubscriptionEvents_perm {l1 l2 : List Frontend.KEvent}
    (h : l1.Perm l2) :
    (Frontend.processSubscriptionEvents l1).Perm
      (Frontend.processSubscriptionEvents l2) :=
  perm_of_alookup_eq _ _
    (keysNodup_foldl_step l1 [] (by simp))
    (keysNodup_foldl_step l2 [] (by simp))
    (fun k => alookup_foldl_step_perm h [] k)

/-- The two reducers are the same function. -/
theorem processOrderEvents_eq_processSubscriptionEvents :
    Frontend.processOrderEvents = Frontend.processSubscriptionEvents := rfl

/-- Sorting is blind to the input's order. -/
theorem sortInt_congr_perm {l1 l2 : List Int} (h : l1.Perm l2) :
    sortInt l1 = sortInt l2 :=
  List.eq_of_perm_of_sorted
    (((List.perm_insertionSort _ l1).trans h).trans
      (List.perm_insertionSort _ l2).symm)
    (List.sorted_insertionSort _ l1)
    (List.sorted_insertionSort _ l2)

/-- The statistics are invariant under permutation of the record list. -/
theorem calculateStatistics_congr_perm {p1 p2 : List Frontend.ProfileData}
    (h : p1.Perm p2) :
    Frontend.calculateStatistics p1 = Frontend.calculateStatistics p2 := by
  have hlen : p1.length = p2.length := h.length_eq
  have hwo : (Frontend.withOrders p1).length = (Frontend.withOrders p2).length :=
    (h.filter _).length_eq
  have hdays : Frontend.daysToOrderOf p1 = Frontend.daysToOrderOf p2 :=
    sortInt_congr_perm (((h.filter _).map _).filter _)
  unfold Frontend.calculateStatistics
  dsimp only
  rw [hdays, hwo, hlen]

/-- C6 (amended): the statistics record of `runAnalysis` is identical under
any permutation of the two input event lists. -/
theorem runAnalysis_statistics_perm_invariant
    (subs1 subs2 ords1 ords2 : List Frontend.KEvent)
    (hs : subs1.Perm subs2) (ho : ords1.Perm ords2) :
    (Frontend.runAnalysis subs1 ords1).statistics =
      (Frontend.runAnalysis subs2 ords2).statistics := by
  show Frontend.calculateStatistics
      (Frontend.matchSubscriptionsToOrders (Frontend.processSubscriptionEvents subs1)
        (Frontend.processOrderEvents ords1)) =
    Frontend.calculateStatistics
      (Frontend.matchSubscriptionsToOrders (Frontend.processSubscriptionEvents subs2)
        (Frontend.processOrderEvents ords2))
  have hmo : Frontend.matchOne (Frontend.processOrderEvents ords1) =
      Frontend.matchOne (Frontend.processOrderEvents ords2) := by
    funext e
    unfold Frontend.matchOne
    rw [show alookup e.1 (Frontend.processOrderEvents ords1) =
        alookup e.1 (Frontend.processOrderEvents ords2) from
      alookup_foldl_step_perm ho [] e.1]
  apply calculateStatistics_congr_perm
  show (List.map (Frontend.matchOne (Frontend.processOrderEvents ords1))
      (Frontend.processSubscriptionEvents subs1)).Perm
    (List.map (Frontend.matchOne (Frontend.processOrderEvents ords2))
      (Frontend.processSubscriptionEvents subs2))
  rw [hmo]
  exact (processSubscriptionEvents_perm hs).map _

/-- Witness for `runAnalysis_statistics_perm_invariant` on a two-event
swap. -/
theorem runAnalysis_statistics_perm_invariant_witness :
    ([⟨some "A", some 0⟩, ⟨some "B", some 86400000⟩] : List Frontend.KEvent).Perm
      [⟨some "B", some 86400000⟩, ⟨some "A", some 0⟩] ∧
    ([] : List Frontend.KEvent).Perm [] ∧
    (Frontend.runAnalysis [⟨some "A", some 0⟩, ⟨some "B", some 86400000⟩]
        []).statistics =
      (Frontend.runAnalysis [⟨some "B", some 86400000⟩, ⟨some "A", some 0⟩]
        []).statistics :=
  ⟨by decide, by decide,
    runAnalysis_statistics_perm_invariant _ _ _ _ (by decide) (by decide)⟩

/-- Two timestamps with the same ISO-week Thursday get the same week
number. -/
theorem getWeekNumber_eq_of_same_thursday (ms1 ms2 : Int)
    (h : dayOf ms1 + 4 - (if getDayJS ms1 = 0 then 7 else getDayJS ms1) =
      dayOf ms2 + 4 - (if getDayJS ms2 = 0 then 7 else getDayJS ms2)) :
    Frontend.getWeekNumber ms1 = Frontend.getWeekNumber ms2 := by
  unfold Frontend.getWeekNumber
  dsimp only
  rw [h]

/-- C6: permuting the subscription events changes the `AnalysisResult`: the
cohort's `signupDate` (and label) is the first record of the cohort in input
order, so swapping two same-week subscribers (2025-01-07 and 2025-01-08,
days 20095 and 20096) produces different cohort lists even though each run's
single bucket is trivially sorted and no record ordering is consulted. -/
theorem permuted_input_cohort_counterexample :
    ((Frontend.runAnalysis
        [⟨some "A", some 1736208000000⟩, ⟨some "B", some 1736294400000⟩]
        []).cohortData.map (fun c => c.signupDate)) = [20095] ∧
    ((Frontend.runAnalysis
        [⟨some "B", some 1736294400000⟩, ⟨some "A", some 1736208000000⟩]
        []).cohortData.map (fun c => c.signupDate)) = [20096] ∧
    (Frontend.runAnalysis
        [⟨some "A", some 1736208000000⟩, ⟨some "B", some 1736294400000⟩]
        []).cohortData ≠
      (Frontend.runAnalysis
        [⟨some "B", some 1736294400000⟩, ⟨some "A", some 1736208000000⟩]
        []).cohortData := by
  have hkey : Frontend.cohortKeyOf 1736294400000 = Frontend.cohortKeyOf 1736208000000 := by
    unfold Frontend.cohortKeyOf
    rw [show getFullYear 1736294400000 = getFullYear 1736208000000 from by decide,
      getWeekNumber_eq_of_same_thursday 1736294400000 1736208000000 (by decide)]
  have hp1 : Frontend.matchSubscriptionsToOrders
      (Frontend.processSubscriptionEvents
        [⟨some "A", some 1736208000000⟩, ⟨some "B", some 1736294400000⟩])
      (Frontend.processOrderEvents []) =
      [⟨"A", 1736208000000, none, none⟩, ⟨"B", 1736294400000, none, none⟩] := by
    decide
  have hp2 : Frontend.matchSubscriptionsToOrders
      (Frontend.processSubscriptionEvents
        [⟨some "B", some 1736294400000⟩, ⟨some "A", some 1736208000000⟩])
      (Frontend.processOrderEvents []) =
      [⟨"B", 1736294400000, none, none⟩, ⟨"A", 1736208000000, none, none⟩] := by
    decide
  have hgroup1 : groupByKey
      (fun p : Frontend.ProfileData => Frontend.cohortKeyOf p.firstSubscriptionDate)
      [⟨"A", 1736208000000, none, none⟩, ⟨"B", 1736294400000, none, none⟩] =
      [(Frontend.cohortKeyOf 1736208000000,
        [⟨"A", 1736208000000, none, none⟩, ⟨"B", 1736294400000, none, none⟩])] := by
    show insertGroup (Frontend.cohortKeyOf 1736294400000)
      (⟨"B", 1736294400000, none, none⟩ : Frontend.ProfileData)
      (insertGroup (Frontend.cohortKeyOf 1736208000000)
        (⟨"A", 1736208000000, none, none⟩ : Frontend.ProfileData) []) = _
    rw [show insertGroup (Frontend.cohortKeyOf 1736208000000)
        (⟨"A", 1736208000000, none, none⟩ : Frontend.ProfileData) [] =
      [(Frontend.cohortKeyOf 1736208000000,
        [⟨"A", 1736208000000, none, none⟩])] from rfl]
    unfold insertGroup
    rw [if_pos hkey.symm]
    rfl
  have hgroup2 : groupByKey
      (fun p : Frontend.ProfileData => Frontend.cohortKeyOf p.firstSubscriptionDate)
      [⟨"B", 1736294400000, none, none⟩, ⟨"A", 1736208000000, none, none⟩] =
      [(Frontend.cohortKeyOf 1736294400000,
        [⟨"B", 1736294400000, none, none⟩, ⟨"A", 1736208000000, none, none⟩])] := by
    show insertGroup (Frontend.cohortKeyOf 1736208000000)
      (⟨"A", 1736208000000, none, none⟩ : Frontend.ProfileData)
      (insertGroup (Frontend.cohortKeyOf 1736294400000)
        (⟨"B", 1736294400000, none, none⟩ : Frontend.ProfileData) []) = _
    rw [show insertGroup (Frontend.cohortKeyOf 1736294400000)
        (⟨"B", 1736294400000, none, none⟩ : Frontend.ProfileData) [] =
      [(Frontend.cohortKeyOf 1736294400000,
        [⟨"B", 1736294400000, none, none⟩])] from rfl]
    unfold insertGroup
    rw [if_pos hkey]
    rfl
  have hcoh1 : (Frontend.runAnalysis
      [⟨some "A", some 1736208000000⟩, ⟨some "B", some 1736294400000⟩]
      []).cohortData =
      [Frontend.mkCohortPoint
        [⟨"A", 1736208000000, none, none⟩, ⟨"B", 1736294400000, none, none⟩]] := by
    show Frontend.generateCohortData
      (Frontend.matchSubscriptionsToOrders
        (Frontend.processSubscriptionEvents
          [⟨some "A", some 1736208000000⟩, ⟨some "B", some 1736294400000⟩])
        (Frontend.processOrderEvents [])) = _
    rw [hp1]
    show ((groupByKey
      (fun p : Frontend.ProfileData => Frontend.cohortKeyOf p.firstSubscriptionDate)
      [⟨"A", 1736208000000, none, none⟩, ⟨"B", 1736294400000, none, none⟩]).map
      (fun kv => Frontend.mkCohortPoint kv.2)).insertionSort
      (fun a b => a.signupDate ≤ b.signupDate) = _
    rw [hgroup1]
    rfl
  have hcoh2 : (Frontend.runAnalysis
      [⟨some "B", some 1736294400000⟩, ⟨some "A", some 1736208000000⟩]
      []).cohortData =
      [Frontend.mkCohortPoint
        [⟨"B", 1736294400000, none, none⟩, ⟨"A", 1736208000000, none, none⟩]] := by
    show Frontend.generateCohortData
      (Frontend.matchSubscriptionsToOrders
        (Frontend.processSubscriptionEvents
          [⟨some "B", some 1736294400000⟩, ⟨some "A", some 1736208000000⟩])
        (Frontend.processOrderEvents [])) = _
    rw [hp2]
    show ((groupByKey
      (fun p : Frontend.ProfileData => Frontend.cohortKeyOf p.firstSubscriptionDate)
      [⟨"B", 1736294400000, none, none⟩, ⟨"A", 1736208000000, none, none⟩]).map
      (fun kv => Frontend.mkCohortPoint kv.2)).insertionSort
      (fun a b => a.signupDate ≤ b.signupDate) = _
    rw [hgroup2]
    rfl
  have h1 : ((Frontend.runAnalysis
      [⟨some "A", some 1736208000000⟩, ⟨some "B", some 1736294400000⟩]
      []).cohortData.map (fun c => c.signupDate)) = [20095] := by
    rw [hcoh1]
    show [(Frontend.mkCohortPoint
      [⟨"A", 1736208000000, none, none⟩,
        ⟨"B", 1736294400000, none, none⟩]).signupDate] = [20095]
    rw [show (Frontend.mkCohortPoint
      [(⟨"A", 1736208000000, none, none⟩ : Frontend.ProfileData),
        ⟨"B", 1736294400000, none, none⟩]).signupDate = 20095 from by decide]
  have h2 : ((Frontend.runAnalysis
      [⟨some "B", some 1736294400000⟩, ⟨some "A", some 1736208000000⟩]
      []).cohortData.map (fun c => c.signupDate)) = [20096] := by
    rw [hcoh2]
    show [(Frontend.mkCohortPoint
      [⟨"B", 1736294400000, none, none⟩,
        ⟨"A", 1736208000000, none, none⟩]).signupDate] = [20096]
    rw [show (Frontend.mkCohortPoint
      [(⟨"B", 1736294400000, none, none⟩ : Frontend.ProfileData),
        ⟨"A", 1736208000000, none, none⟩]).signupDate = 20096 from by decide]
  refine ⟨h1, h2, fun heq => ?_⟩
  have h3 := congrArg (List.map (fun c : Frontend.CohortDataPoint => c.signupDate)) heq
  rw [h1, h2] at h3
  exact absurd h3 (by decide)
